import Mathlib

/-!
Shallow embedding of `src/friskis.py` (a CLI that books recurring fitness
classes) and proofs about its schedule store, occurrence resolver, activity
matcher and booking eligibility logic.

Conventions of the embedding:
* Python strings are Lean `String`; `str.lower()` is `pyLower`,
  `str.strip()` is `pyStrip`, substring containment (`a in b`) is
  `List.IsInfix` on the character lists (all defined below so that they
  evaluate inside the kernel).
* Dates are `Nat`, counting days from a fixed Monday epoch, so that
  `isoweekday d = d % 7 + 1`.
* Instants are `Int`, counting seconds; `timedelta(days=1)` is `86400`.
* The remote directory, bookings endpoint and file system are inputs to the
  embedded functions: a directory lookup result is passed as a
  `List GroupActivity`, the stored schedule file as an
  `Option (List ScheduleEntry)` (`none` = file absent), and the remote
  acceptance of a booking as a `Bool`.
-/

/-- One record of the schedule store file (`.schedule.json`): the dict
`{"name": .., "location": .., "weekday": .., "time": ..}` written by `add`. -/
structure ScheduleEntry where
  name : String
  location : String
  weekday : Nat
  time : String
deriving DecidableEq, Repr

/-- One group activity as returned by the remote directory, restricted to the
fields `friskis.py` reads.  `startLocalHHMM` models
`_parse_datetime(ga["duration"]["start"]).astimezone(STOCKHOLM_TIMEZONE).strftime("%H:%M")`,
i.e. the start instant already projected to its local "HH:MM" string;
`bookableEarliest` models `_parse_datetime(ga["bookableEarliest"])` in seconds. -/
structure GroupActivity where
  id : Nat
  name : String
  startLocalHHMM : String
  cancelled : Bool
  bookableEarliest : Int
  slotsLeftToBook : Nat
  slotsInWaitingList : Nat
deriving DecidableEq, Repr

/-- Python `str.lower()`: lower-case every character. -/
def pyLower (s : String) : String :=
  ⟨s.data.map Char.toLower⟩

/-- Python `str.strip()`: drop whitespace from both ends. -/
def pyStrip (s : String) : String :=
  ⟨((s.data.dropWhile Char.isWhitespace).reverse.dropWhile Char.isWhitespace).reverse⟩

/-- Python substring containment `a in b` on strings. -/
def pySubstr (a b : String) : Prop :=
  a.data <:+: b.data

instance (a b : String) : Decidable (pySubstr a b) :=
  inferInstanceAs (Decidable (_ <:+: _))

/-- `_get_schedule(schedule_path)`: reading the store file.  The file system
is modelled by the argument: `none` when `Path(schedule_path).exists()` is
false, `some s` for a file holding the JSON list `s`. -/
def _get_schedule (stored : Option (List ScheduleEntry)) : List ScheduleEntry :=
  match stored with
  | none => []
  | some s => s

/-- The duplicate test in `add`'s loop body:
`name == event["name"] and location == event["location"] and
weekday_number == event["weekday"] and time == event["time"]`. -/
def addDuplicatePred (name location : String) (weekdayNumber : Nat) (time : String)
    (event : ScheduleEntry) : Bool :=
  name == event.name && location == event.location
    && weekdayNumber == event.weekday && time == event.time

/-- The errors `add` raises as `click.ClickException`s. -/
inductive AddError
  | duplicate
  | notScheduled
deriving DecidableEq, Repr

/-- The `add` command (file `friskis.py`, `def add`): raises `duplicate` when
an event with the same name, location, weekday number and time is already in
the schedule, raises `notScheduled` when the remote directory has no matching
upcoming activity (that remote lookup result is the `upcomingExists` input),
and otherwise persists the schedule with the new entry appended. -/
def add (name location : String) (weekdayNumber : Nat) (time : String)
    (schedule : List ScheduleEntry) (upcomingExists : Bool) :
    Except AddError (List ScheduleEntry) :=
  if schedule.any (addDuplicatePred name location weekdayNumber time) then
    .error .duplicate
  else if !upcomingExists then
    .error .notScheduled
  else
    .ok (schedule ++ [⟨name, location, weekdayNumber, time⟩])

/-- The match test in `remove`'s loop body:
`name.lower() in event["name"].lower() and location.lower() == event["location"].lower()
and weekday_number == event["weekday"] and time == event["time"]`. -/
def removeMatchPred (name location : String) (weekdayNumber : Nat) (time : String)
    (event : ScheduleEntry) : Bool :=
  decide (pySubstr (pyLower name) (pyLower event.name))
    && pyLower location == pyLower event.location
    && weekdayNumber == event.weekday && time == event.time

/-- The error `remove` raises as a `click.ClickException`. -/
inductive RemoveError
  | noMatch
deriving DecidableEq, Repr

/-- The `matches` list collected by `remove`'s loop: every event of the
schedule satisfying `removeMatchPred`. -/
def removeMatches (name location : String) (weekdayNumber : Nat) (time : String)
    (schedule : List ScheduleEntry) : List ScheduleEntry :=
  schedule.filter (removeMatchPred name location weekdayNumber time)

/-- The `remove` command (file `friskis.py`, `def remove`): collects every
event satisfying `removeMatchPred`, raises `noMatch` when there are none, and
otherwise persists `[e for e in schedule if e not in matches]`. -/
def remove (name location : String) (weekdayNumber : Nat) (time : String)
    (schedule : List ScheduleEntry) : Except RemoveError (List ScheduleEntry) :=
  if (removeMatches name location weekdayNumber time schedule).length = 0 then
    .error .noMatch
  else
    .ok (schedule.filter
      (fun e => decide (e ∉ removeMatches name location weekdayNumber time schedule)))

/-- `_pluralize_weekday`: append `"ar"` unless the word already ends in it.
Strings are taken as character lists so the suffix test is `List.IsSuffix`. -/
def _pluralize_weekday (weekday : List Char) : List Char :=
  if ¬ ("ar".toList <:+ weekday) then weekday ++ "ar".toList else weekday

/-- `_normalize(ctx, s, formatters)`: the recursive formatter chain, with the
source's three cases (empty list, singleton, longer list). -/
def _normalize {Ctx : Type} (ctx : Ctx) : String → List (Ctx → String → String) → String
  | s, [] => s
  | s, [f] => f ctx s
  | s, f :: g :: rest => _normalize ctx (f ctx s) (g :: rest)

/-- The date search in `_get_upcoming_group_activity`, one loop check per unit
of fuel: starting at date `d`, return the first date whose ISO weekday is
`weekdayNumber`, or `none` when the fuel runs out. -/
def findWeekdayDate : Nat → Nat → Nat → Option Nat
  | 0, _, _ => none
  | fuel + 1, d, weekdayNumber =>
    if d % 7 + 1 = weekdayNumber then some d
    else findWeekdayDate fuel (d + 1) weekdayNumber

/-- The date computed by `_get_upcoming_group_activity`: start the search at
`today + timedelta(days=1)` and advance by one day until
`group_activity_date.isoweekday() == weekday_number`.  Seven units of fuel
cover all seven start weekdays; `none` models the source's infinite loop on a
weekday number outside 1..7. -/
def upcomingGroupActivityDate (today weekdayNumber : Nat) : Option Nat :=
  findWeekdayDate 7 (today + 1) weekdayNumber

/-- The match test in `_get_group_activity`'s loop:
`group_activity["name"].lower().strip() == name.lower()` together with the
"HH:MM" projection of the start instant equalling `time`. -/
def activityMatchPred (name time : String) (ga : GroupActivity) : Bool :=
  pyStrip (pyLower ga.name) == pyLower name && ga.startLocalHHMM == time

/-- `_get_group_activity(name, day, business_unit, time)`: iterate over the
day's directory listing (here the `groupActivities` input) and return the
first activity whose name and start time match, implicitly `None` otherwise. -/
def _get_group_activity (name time : String) :
    List GroupActivity → Option GroupActivity
  | [] => none
  | ga :: rest =>
    if activityMatchPred name time ga then some ga
    else _get_group_activity name time rest

/-- The user-visible messages the per-entry loop body of `book` can emit,
keeping the data the message text interpolates.  `fullyBooked` carries the
waiting-list length together with the word chosen by
`'personer' if waiting_list_length > 1 else 'person'`. -/
inductive BookMessage
  | notScheduled
  | cancelled
  | fullyBooked (waitingListLength : Nat) (word : String)
  | bookedOk
deriving DecidableEq, Repr

/-- What one iteration of `book`'s loop did: the messages it printed and
whether it called `_book_group_activity` (i.e. submitted a booking request). -/
structure EntryOutcome where
  messages : List BookMessage
  submitted : Bool
deriving DecidableEq, Repr

/-- The cancellation report `book` prints (without stopping) when the matched
activity's `cancelled` flag is set. -/
def cancelledMessagesOf (ga : GroupActivity) : List BookMessage :=
  if ga.cancelled then [.cancelled] else []

/-- One iteration of the loop in the `book` command (file `friskis.py`,
`def book`), for one schedule entry.  The `Option GroupActivity` argument is
the result of `_get_upcoming_group_activity` (the remote lookup),
`existingBookingIds` the ids of the user's existing bookings, `now` the
current instant in seconds and the final `Bool` whether the remote system
answers the submission with 201.  The body follows the source line by line: a
missing activity is reported and skipped; a cancelled one is reported but
evaluation continues; too early, already booked or past
`bookableEarliest + timedelta(days=1)` is a silent skip; zero slots left is
reported with the waiting-list length and skipped; otherwise the booking is
submitted, and a success message is printed only when the remote accepted. -/
def bookProcessEvent (now : Int) (existingBookingIds : List Nat) :
    Option GroupActivity → Bool → EntryOutcome
  | none, _ => ⟨[.notScheduled], false⟩
  | some ga, bookingAccepted =>
    if now < ga.bookableEarliest ∨ ga.id ∈ existingBookingIds
        ∨ ga.bookableEarliest + 86400 < now then
      ⟨cancelledMessagesOf ga, false⟩
    else if ga.slotsLeftToBook = 0 then
      ⟨cancelledMessagesOf ga
        ++ [.fullyBooked ga.slotsInWaitingList
              (if ga.slotsInWaitingList > 1 then "personer" else "person")],
        false⟩
    else
      ⟨cancelledMessagesOf ga ++ (if bookingAccepted then [.bookedOk] else []),
        true⟩

/-- C8: for every context, string and formatter list, the recursive
`_normalize` equals the left-to-right fold of the formatters over the string,
and on the empty formatter list it returns the string unchanged. -/
theorem c8_normalize_eq_foldl {Ctx : Type} (ctx : Ctx) (s : String)
    (formatters : List (Ctx → String → String)) :
    _normalize ctx s formatters = formatters.foldl (fun t f => f ctx t) s ∧
    _normalize ctx s [] = s := by
  refine ⟨?_, rfl⟩
  induction formatters generalizing s with
  | nil => rfl
  | cons f rest ih =>
    cases rest with
    | nil => rfl
    | cons g rest2 =>
      show _normalize ctx (f ctx s) (g :: rest2) = _
      rw [ih (f ctx s)]
      rfl

/-- C9: a missing schedule file is read as the empty schedule, and a first
`add` against it succeeds, persisting exactly the one new entry; `list`,
`remove` and `book` likewise operate on the empty list instead of failing. -/
theorem c9_missing_store_is_empty_schedule :
    _get_schedule none = [] ∧
    ∀ (name location : String) (weekdayNumber : Nat) (t : String),
      add name location weekdayNumber t (_get_schedule none) true =
        .ok [⟨name, location, weekdayNumber, t⟩] :=
  ⟨rfl, fun _ _ _ _ => rfl⟩

/-- C10: `_pluralize_weekday` is idempotent and its result always ends in
the suffix `"ar"`. -/
theorem c10_pluralize_weekday_idempotent (w : List Char) :
    _pluralize_weekday (_pluralize_weekday w) = _pluralize_weekday w ∧
    "ar".toList <:+ _pluralize_weekday w := by
  have hend : ∀ v : List Char, "ar".toList <:+ _pluralize_weekday v := by
    intro v
    unfold _pluralize_weekday
    by_cases h : "ar".toList <:+ v
    · rw [if_neg (not_not_intro h)]
      exact h
    · rw [if_pos h]
      exact ⟨v, rfl⟩
  refine ⟨?_, hend w⟩
  have h2 := hend w
  generalize _pluralize_weekday w = v at h2 ⊢
  unfold _pluralize_weekday
  rw [if_neg (not_not_intro h2)]

/-- C3: for a matched, not-already-booked, not-cancelled activity with a free
slot and `bookableEarliest = T`: one second before `T` the engine skips with
no message, one second after `T` it submits a booking, and twenty-five hours
after `T` (one hour past the 24-hour window) it skips with no message. -/
theorem c3_booking_window (ga : GroupActivity) (ids : List Nat) (accepted : Bool)
    (hnc : ga.cancelled = false) (hslots : 0 < ga.slotsLeftToBook)
    (hid : ga.id ∉ ids) :
    bookProcessEvent (ga.bookableEarliest - 1) ids (some ga) accepted
        = ⟨[], false⟩ ∧
    (bookProcessEvent (ga.bookableEarliest + 1) ids (some ga) accepted).submitted
        = true ∧
    bookProcessEvent (ga.bookableEarliest + 90000) ids (some ga) accepted
        = ⟨[], false⟩ := by
  simp only [bookProcessEvent]
  refine ⟨?_, ?_, ?_⟩
  · rw [if_pos (Or.inl (by omega))]
    simp [cancelledMessagesOf, hnc]
  · rw [if_neg (by push_neg; exact ⟨by omega, hid, by omega⟩)]
    rw [if_neg (by omega)]
  · rw [if_pos (Or.inr (Or.inr (by omega)))]
    simp [cancelledMessagesOf, hnc]

/-- Witness for C3 at `T = 1000`, an un-cancelled five-slot activity and no
existing bookings. -/
theorem c3_booking_window_witness :
    bookProcessEvent 999 [] (some ⟨1, "spin", "18:00", false, 1000, 5, 0⟩) true
        = ⟨[], false⟩ ∧
    (bookProcessEvent 1001 [] (some ⟨1, "spin", "18:00", false, 1000, 5, 0⟩)
        true).submitted = true ∧
    bookProcessEvent 91000 [] (some ⟨1, "spin", "18:00", false, 1000, 5, 0⟩) true
        = ⟨[], false⟩ :=
  c3_booking_window ⟨1, "spin", "18:00", false, 1000, 5, 0⟩ [] true rfl
    (by decide) (by decide)

/-- C4: a cancelled activity is reported but evaluation continues: the
outcome is exactly the outcome for the same activity with the flag cleared,
plus a leading cancellation message; in particular, when the timing,
already-booked and fullness checks pass, a booking is submitted for the
cancelled activity. -/
theorem c4_cancelled_does_not_short_circuit (now : Int) (ids : List Nat)
    (ga : GroupActivity) (accepted : Bool) (hc : ga.cancelled = true) :
    (bookProcessEvent now ids (some ga) accepted).messages
        = .cancelled ::
          (bookProcessEvent now ids
            (some { ga with cancelled := false }) accepted).messages ∧
    (bookProcessEvent now ids (some ga) accepted).submitted
        = (bookProcessEvent now ids
            (some { ga with cancelled := false }) accepted).submitted ∧
    (¬ now < ga.bookableEarliest → ga.id ∉ ids →
      ¬ ga.bookableEarliest + 86400 < now → ga.slotsLeftToBook ≠ 0 →
      (bookProcessEvent now ids (some ga) accepted).submitted = true) := by
  simp only [bookProcessEvent, cancelledMessagesOf, hc, if_true]
  by_cases hw : now < ga.bookableEarliest ∨ ga.id ∈ ids
      ∨ ga.bookableEarliest + 86400 < now
  · rw [if_pos hw, if_pos hw]
    refine ⟨rfl, rfl, fun h1 h2 h3 _ => ?_⟩
    rcases hw with h | h | h
    · exact absurd h h1
    · exact absurd h h2
    · exact absurd h h3
  · rw [if_neg hw, if_neg hw]
    by_cases hs : ga.slotsLeftToBook = 0
    · rw [if_pos hs, if_pos hs]
      exact ⟨rfl, rfl, fun _ _ _ h => absurd hs h⟩
    · rw [if_neg hs, if_neg hs]
      exact ⟨rfl, rfl, fun _ _ _ _ => rfl⟩

/-- Witness for C4: a cancelled activity inside its booking window with free
slots is reported cancelled and still booked. -/
theorem c4_cancelled_witness :
    (bookProcessEvent 100 [] (some ⟨2, "yoga", "10:00", true, 0, 3, 1⟩)
        true).messages
      = .cancelled ::
        (bookProcessEvent 100 []
          (some ⟨2, "yoga", "10:00", false, 0, 3, 1⟩) true).messages ∧
    (bookProcessEvent 100 [] (some ⟨2, "yoga", "10:00", true, 0, 3, 1⟩)
        true).submitted = true := by
  have h := c4_cancelled_does_not_short_circuit 100 []
    ⟨2, "yoga", "10:00", true, 0, 3, 1⟩ true rfl
  exact ⟨h.1, h.2.2 (by decide) (by decide) (by decide) (by decide)⟩

/-- C7: a full activity (`slots_left_to_book = 0`) that passes the timing and
already-booked checks is reported full with the waiting-list length and the
singular word for length 1 and the plural word otherwise, and no booking is
submitted. -/
theorem c7_full_reports_waitlist (now : Int) (ids : List Nat)
    (ga : GroupActivity) (accepted : Bool)
    (h1 : ¬ now < ga.bookableEarliest) (h2 : ga.id ∉ ids)
    (h3 : ¬ ga.bookableEarliest + 86400 < now)
    (hfull : ga.slotsLeftToBook = 0) :
    bookProcessEvent now ids (some ga) accepted =
      ⟨cancelledMessagesOf ga
         ++ [.fullyBooked ga.slotsInWaitingList
               (if ga.slotsInWaitingList > 1 then "personer" else "person")],
        false⟩ := by
  simp only [bookProcessEvent]
  rw [if_neg (by push_neg; exact ⟨by omega, h2, by omega⟩), if_pos hfull]

/-- Witness for C7 at waiting-list length 3: the message carries the length
3 and the plural word, and nothing is submitted. -/
theorem c7_full_witness :
    bookProcessEvent 100 [] (some ⟨5, "core", "12:00", false, 0, 0, 3⟩) true
      = ⟨[.fullyBooked 3 "personer"], false⟩ := by
  have h := c7_full_reports_waitlist 100 [] ⟨5, "core", "12:00", false, 0, 0, 3⟩
    true (by decide) (by decide) (by decide) rfl
  simpa using h

/-- The date search of `_get_upcoming_group_activity`: with enough fuel to
reach a hit, `findWeekdayDate` returns the first date at or after the start
whose weekday matches, within the fuel bound. -/
theorem findWeekdayDate_some (fuel s w : Nat)
    (h : ∃ i, i < fuel ∧ (s + i) % 7 + 1 = w) :
    ∃ d, findWeekdayDate fuel s w = some d ∧ d % 7 + 1 = w ∧ s ≤ d ∧
      d < s + fuel := by
  induction fuel generalizing s with
  | zero =>
    obtain ⟨i, hi, _⟩ := h
    omega
  | succ n ih =>
    by_cases hs : s % 7 + 1 = w
    · exact ⟨s, by simp [findWeekdayDate, hs], hs, Nat.le_refl s, by omega⟩
    · obtain ⟨i, hi, hw⟩ := h
      have hi0 : i ≠ 0 := by
        rintro rfl
        exact hs (by simpa using hw)
      have hnext : (s + 1 + (i - 1)) % 7 + 1 = w := by
        have heq : s + 1 + (i - 1) = s + i := by omega
        rw [heq]
        exact hw
      obtain ⟨d, hd, hdw, hds, hdlt⟩ := ih (s + 1) ⟨i - 1, by omega, hnext⟩
      refine ⟨d, ?_, hdw, by omega, by omega⟩
      simp [findWeekdayDate, hs, hd]

/-- C5: for any current date and weekday number in 1..7, the search in
`_get_upcoming_group_activity` terminates within 7 iterations (7 units of
fuel suffice) and yields a date whose ISO weekday is the requested one,
strictly after the current date (today excluded) and at most 7 days ahead. -/
theorem c5_upcoming_date_in_week (today weekdayNumber : Nat)
    (hlo : 1 ≤ weekdayNumber) (hhi : weekdayNumber ≤ 7) :
    ∃ d, upcomingGroupActivityDate today weekdayNumber = some d ∧
      d % 7 + 1 = weekdayNumber ∧ today < d ∧ d ≤ today + 7 := by
  have hex : ∃ i, i < 7 ∧ (today + 1 + i) % 7 + 1 = weekdayNumber := by
    refine ⟨(weekdayNumber - 1 + 7 - (today + 1) % 7) % 7, by omega, by omega⟩
  obtain ⟨d, hd, hw, hs, hlt⟩ :=
    findWeekdayDate_some 7 (today + 1) weekdayNumber hex
  exact ⟨d, hd, hw, by omega, by omega⟩

/-- Witness for C5: from a Monday (day 0 of the epoch), the next Tuesday
(weekday 2) is day 1. -/
theorem c5_upcoming_date_witness :
    ∃ d, upcomingGroupActivityDate 0 2 = some d ∧ d % 7 + 1 = 2 ∧ 0 < d ∧
      d ≤ 0 + 7 :=
  c5_upcoming_date_in_week 0 2 (by decide) (by decide)

/-- The duplicate test of `add` holds of an event exactly when the event is
the tuple being added. -/
theorem addDuplicatePred_eq_true_iff (name location : String)
    (weekdayNumber : Nat) (time : String) (e : ScheduleEntry) :
    addDuplicatePred name location weekdayNumber time e = true ↔
      e = ⟨name, location, weekdayNumber, time⟩ := by
  cases e
  simp [addDuplicatePred, ScheduleEntry.mk.injEq]
  tauto

/-- C6: adding a tuple already present in the store fails with the duplicate
error and nothing is persisted, and a successful `add` on a store without
duplicate tuples yields a store without duplicate tuples (entries are exactly
their `(name, location, weekday, time)` tuples). -/
theorem c6_add_duplicate_rejected (name location : String)
    (weekdayNumber : Nat) (time : String) (schedule : List ScheduleEntry)
    (upcomingExists : Bool) :
    ((⟨name, location, weekdayNumber, time⟩ : ScheduleEntry) ∈ schedule →
      add name location weekdayNumber time schedule upcomingExists
        = .error .duplicate) ∧
    (schedule.Nodup → ∀ out,
      add name location weekdayNumber time schedule upcomingExists = .ok out →
      out.Nodup) := by
  constructor
  · intro hmem
    have hany : schedule.any
        (addDuplicatePred name location weekdayNumber time) = true := by
      rw [List.any_eq_true]
      exact ⟨_, hmem, (addDuplicatePred_eq_true_iff _ _ _ _ _).mpr rfl⟩
    simp [add, hany]
  · intro hnodup out hok
    by_cases hany : schedule.any
        (addDuplicatePred name location weekdayNumber time) = true
    · simp [add, hany] at hok
    · cases hup : upcomingExists
      · simp [add, hany, hup] at hok
      · have hout : out = schedule ++ [⟨name, location, weekdayNumber, time⟩] := by
          simp [add, hany, hup] at hok
          exact hok.symm
        subst hout
        have hnotmem :
            (⟨name, location, weekdayNumber, time⟩ : ScheduleEntry) ∉ schedule := by
          intro hmem
          exact hany (List.any_eq_true.mpr
            ⟨_, hmem, (addDuplicatePred_eq_true_iff _ _ _ _ _).mpr rfl⟩)
        rw [List.nodup_append]
        exact ⟨hnodup, List.nodup_singleton _, by
          simpa [List.disjoint_singleton] using hnotmem⟩

/-- Witness for C6: a duplicate add of the one stored entry is rejected, and
an add of a fresh tuple to a duplicate-free store keeps it duplicate-free. -/
theorem c6_add_duplicate_witness :
    add "spin" "city" 2 "18:00" [⟨"spin", "city", 2, "18:00"⟩] true
      = .error .duplicate ∧
    ([⟨"yoga", "city", 3, "10:00"⟩, ⟨"spin", "city", 2, "18:00"⟩] :
      List ScheduleEntry).Nodup :=
  ⟨(c6_add_duplicate_rejected "spin" "city" 2 "18:00"
      [⟨"spin", "city", 2, "18:00"⟩] true).1 (by decide),
   (c6_add_duplicate_rejected "spin" "city" 2 "18:00"
      [⟨"yoga", "city", 3, "10:00"⟩] true).2 (by decide) _ rfl⟩

/-- C1 counterexample: the predicate of `remove` matches both entries of this
store ("spin" is a substring of both "spin" and "spinning" with equal
location, weekday and time), yet `remove` does not fail with an ambiguity
error: it succeeds and removes both entries. -/
theorem c1_ambiguous_remove_counterexample :
    (removeMatches "spin" "city" 2 "18:00"
      [⟨"spin", "city", 2, "18:00"⟩,
       ⟨"spinning", "city", 2, "18:00"⟩]).length = 2 ∧
    remove "spin" "city" 2 "18:00"
      [⟨"spin", "city", 2, "18:00"⟩, ⟨"spinning", "city", 2, "18:00"⟩]
      = .ok [] :=
  ⟨rfl, rfl⟩

/-- C1 amended: when the combined predicate of `remove` selects two or more
entries, `remove` does not fail: it succeeds and removes every matching
entry, persisting the store filtered down to the non-matching entries. -/
theorem c1_remove_removes_every_match (name location : String)
    (weekdayNumber : Nat) (time : String) (schedule : List ScheduleEntry)
    (h : 2 ≤ (removeMatches name location weekdayNumber time schedule).length) :
    remove name location weekdayNumber time schedule =
      .ok (schedule.filter
        (fun e => !(removeMatchPred name location weekdayNumber time e))) := by
  unfold remove
  rw [if_neg (by omega)]
  congr 1
  apply List.filter_congr
  intro e he
  cases hp : removeMatchPred name location weekdayNumber time e with
  | false => simp [removeMatches, List.mem_filter, hp]
  | true => simp [removeMatches, List.mem_filter, he, hp]

/-- Witness for the amended C1: three entries, two matching; both matching
entries are removed in the one invocation and only the third survives. -/
theorem c1_remove_witness :
    remove "spin" "city" 2 "18:00"
      [⟨"spin", "city", 2, "18:00"⟩, ⟨"spinning", "city", 2, "18:00"⟩,
       ⟨"box", "city", 2, "18:00"⟩]
      = .ok ([⟨"spin", "city", 2, "18:00"⟩, ⟨"spinning", "city", 2, "18:00"⟩,
              ⟨"box", "city", 2, "18:00"⟩].filter
          (fun e => !(removeMatchPred "spin" "city" 2 "18:00" e))) :=
  c1_remove_removes_every_match "spin" "city" 2 "18:00"
    [⟨"spin", "city", 2, "18:00"⟩, ⟨"spinning", "city", 2, "18:00"⟩,
     ⟨"box", "city", 2, "18:00"⟩] (by decide)

/-- C2 counterexample: the lookup name `" spin"` and the listed name `"spin"`
agree once both are trimmed and case-folded, but the matcher finds nothing,
because only the listed activity's name is trimmed — the lookup name keeps
its leading whitespace. -/
theorem c2_lookup_whitespace_counterexample :
    pyStrip (pyLower " spin") = pyStrip (pyLower "spin") ∧
    _get_group_activity " spin" "18:00"
      [⟨1, "spin", "18:00", false, 0, 5, 0⟩] = none :=
  ⟨rfl, rfl⟩

/-- C2 amended: the matcher's name comparison case-folds both sides but trims
surrounding whitespace only from the listed activity's name, never from the
lookup name; it returns the first activity in listing order whose trimmed,
case-folded listed name equals the case-folded lookup name and whose local
"HH:MM" start equals the requested time. -/
theorem c2_matcher_trims_listing_side_only (name time : String)
    (groupActivities : List GroupActivity) :
    _get_group_activity name time groupActivities
      = groupActivities.find?
          (fun ga => pyStrip (pyLower ga.name) == pyLower name
            && ga.startLocalHHMM == time) := by
  induction groupActivities with
  | nil => rfl
  | cons ga rest ih =>
    by_cases h : activityMatchPred name time ga = true
    · simp only [_get_group_activity, h, if_true, List.find?]
      rw [show (pyStrip (pyLower ga.name) == pyLower name
        && ga.startLocalHHMM == time) = true from h]
    · simp only [_get_group_activity, h, if_false, List.find?]
      rw [show (pyStrip (pyLower ga.name) == pyLower name
        && ga.startLocalHHMM == time) = false from Bool.eq_false_iff.mpr h]
      exact ih
